import Mathlib

/-!
Verification of the docstring-generation pipeline in
`src/decorator/generator.py` (class `DocstringGenerator` and
`add_docstrings_to_file`).

The Python AST fragments that the pipeline inspects are embedded as inductive
types below; each Lean definition mirrors one Python function of the source
and is named after it where Lean allows.  Attribute accesses that can fail in
Python (`AttributeError`, `UnboundLocalError`) are modelled by `Except`:
Python code that raises is code whose embedding returns `.error`.

Modelling notes, fixed once here:
* Bare string-literal expression statements (`ast.Expr` holding an
  `ast.Constant`) are the convention lines; the model carries their string
  value.  Constants of other types never appear in the claims.
* Nested function/class definitions and all other statement kinds are opaque
  (`Stmt.other`); `generic_visit` recursion into nested units is outside the
  claims and is not modelled.
* `ast.Constant` annotation operands carry their Python `str()` rendering.
* File reading, `ast.parse` and `astor.to_source` are external collaborators
  (spec section 1); parsing is modelled as an already-made `Except` value and
  rendering as a total serialization function.
-/

/-- A type annotation expression as the source inspects it: `ast.Name`,
`ast.Constant` (carrying its `str()` rendering), `ast.BinOp` (PEP 604 style
unions), and the shapes with no `.id` attribute such as `ast.Subscript`
(`list[int]`) and `ast.Attribute` (`a.B`). -/
inductive Annot where
  | name (id : String)
  | const (s : String)
  | binOp (l r : Annot)
  | subscript
  | attribute_
deriving DecidableEq, Repr

/-- The operand of a `raise` statement: `ast.Name` (`raise ValueError`) or
`ast.Call` (`raise ValueError("msg")`, arguments carried as their literal
values). -/
inductive ExcExpr where
  | name (id : String)
  | call (funcId : String) (args : List String)
deriving DecidableEq, Repr

/-- A statement of a routine body as `extract_function_metadata` classifies
it: a bare string-literal expression statement, a `raise` (with optional
operand), a `return` (with or without a value), or anything else (opaque). -/
inductive Stmt where
  | exprStr (s : String)
  | raiseStmt (exc : Option ExcExpr)
  | ret (hasValue : Bool)
  | other (tag : Nat)
deriving DecidableEq, Repr, Inhabited

/-- One formal parameter: `arg` name and optional annotation (`ast.arg`). -/
structure Param where
  arg : String
  ann : Option Annot
deriving DecidableEq, Repr, Inhabited

/-- An `ast.FunctionDef` node restricted to the fields the source reads:
`name`, `args.args`, `returns`, `body`. -/
structure FunctionDef where
  name : String
  args : List Param
  returns : Option Annot
  body : List Stmt
deriving DecidableEq, Repr, Inhabited

/-- An `ast.AsyncFunctionDef` node, same fields. -/
structure AsyncFunctionDef where
  name : String
  args : List Param
  returns : Option Annot
  body : List Stmt
deriving DecidableEq, Repr, Inhabited

/-- The author identity handed to `DocstringGenerator.__init__`. -/
structure AuthorInfo where
  name : String
  github : String
  email : String
deriving DecidableEq, Repr, Inhabited

/-- `self.author_info["github_url"]` (generator.py line 17). -/
def githubUrl (a : AuthorInfo) : String := "https://github.com/" ++ a.github

/-- Value of a parameter entry in the `param_name` dict: declared type string
and optional convention message (generator.py lines 116-122). -/
structure ParamInfo where
  type : String
  msg : Option String
deriving DecidableEq, Repr, Inhabited

/-- The metadata dict built by `extract_function_metadata`
(generator.py lines 100-111).  Dict key `example` is the Lean field
`exampleMsg` (`example` is a Lean keyword); `parameters` keeps the dict as an
insertion-ordered association list. -/
structure FuncMetadata where
  name : String
  description : Option String
  parameters : List (String × ParamInfo)
  exception_message : Option String
  exceptions : List (String × String)
  returns_message : Option String
  returns : Option String
  is_return : Bool
  exampleMsg : Option String
  extra : List Stmt
deriving DecidableEq, Repr, Inhabited

/-- The metadata dict built by `extract_async_function_metadata`
(generator.py lines 248-258): `description`, `exception_message` and
`returns_message` start at the truthy placeholder `"..."` and there is no
`is_return` key. -/
structure AsyncFuncMetadata where
  name : String
  description : String
  parameters : List (String × ParamInfo)
  exception_message : String
  exceptions : List (String × String)
  returns_message : String
  returns : Option String
  exampleMsg : Option String
  extra : List Stmt
deriving DecidableEq, Repr, Inhabited

/-- Python string-prefix test `s.startswith(pre)`. -/
def pyStartsWith (s pre : String) : Bool := pre.data.isPrefixOf s.data

/-- One step of Python `str.replace`: scan left to right, replacing each
non-overlapping occurrence of `pat` by `rep`.  Fuel-indexed so the recursion
is structural; `fuel = length of the text` always suffices because every step
consumes at least one character once `pat` is nonempty. -/
def replaceFuel (pat rep : List Char) : Nat → List Char → List Char
  | 0, l => l
  | _ + 1, [] => []
  | fuel + 1, c :: rest =>
    if pat.isPrefixOf (c :: rest) then
      rep ++ replaceFuel pat rep fuel (rest.drop (pat.length - 1))
    else
      c :: replaceFuel pat rep fuel rest

/-- Python `s.replace(pat, rep)`: every non-overlapping occurrence of `pat`
in `s` is replaced by `rep` (not just a leading prefix). -/
def pyReplace (s pat rep : String) : String :=
  if pat.data.isEmpty then s
  else ⟨replaceFuel pat.data rep.data s.data.length s.data⟩

/-- Python truthiness of an optional string (`None` and `""` are falsy). -/
def pyTruthy : Option String → Bool
  | none => false
  | some s => !(s == "")

/-- Python f-string rendering of a value that may be `None`. -/
def pyShowOpt : Option String → String
  | none => "None"
  | some s => s

/-- Python `m if m else "..."` for an optional string. -/
def pyMsgOr (m : Option String) : String := if pyTruthy m then pyShowOpt m else "..."

/-- Python `m if m else "..."` for a plain string. -/
def pyMsgOrS (m : String) : String := if m == "" then "..." else m

/-- `annotation.id`: only an `ast.Name` has an `id` attribute; every other
annotation shape raises `AttributeError`. -/
def annId : Annot → Except String String
  | .name i => .ok i
  | _ => .error "AttributeError: object has no attribute id"

/-- `param.annotation.id if param.annotation else "..."`
(generator.py line 118). -/
def paramType : Option Annot → Except String String
  | none => .ok "..."
  | some a => annId a

/-- Insertion into the `param_name` dict: overwrite in place if the key is
present, otherwise append (Python dict semantics). -/
def dictInsert (t : List (String × ParamInfo)) (k : String) (v : ParamInfo) :
    List (String × ParamInfo) :=
  match t with
  | [] => [(k, v)]
  | (k2, v2) :: rest =>
    if k2 = k then (k, v) :: rest else (k2, v2) :: dictInsert rest k v

/-- The dict comprehension of generator.py lines 116-122, built parameter by
parameter in declaration order; fails when a parameter annotation has no
`.id`. -/
def buildParamTableAux (table : List (String × ParamInfo)) :
    List Param → Except String (List (String × ParamInfo))
  | [] => .ok table
  | p :: rest =>
    match paramType p.ann with
    | .error m => .error m
    | .ok t => buildParamTableAux (dictInsert table p.arg ⟨t, none⟩) rest

/-- `param_name = {param.arg: {...} for param in params}`. -/
def buildParamTable (ps : List Param) : Except String (List (String × ParamInfo)) :=
  buildParamTableAux [] ps

/-- A side of a binary return annotation (generator.py lines 134-142): an
`ast.Name` resolves to its `id`, an `ast.Constant` to its value; any other
shape leaves the local variable unassigned, so the f-string at line 144
raises `UnboundLocalError`. -/
def resolveSide : Annot → Except String String
  | .name i => .ok i
  | .const s => .ok s
  | _ => .error "UnboundLocalError: local variable referenced before assignment"

/-- Resolution of the declared return annotation (generator.py lines
130-144): `ast.Name` renders as its `id`; `ast.BinOp` renders as
`"<left> or <right>"`; any other annotation shape leaves `returns = None`. -/
def resolveReturns : Option Annot → Except String (Option String)
  | none => .ok none
  | some (.name i) => .ok (some i)
  | some (.binOp l r) =>
    match resolveSide l with
    | .error m => .error m
    | .ok lv =>
      match resolveSide r with
      | .error m => .error m
      | .ok rv => .ok (some (lv ++ " or " ++ rv))
  | some _ => .ok none

/-- `stmt.exc.id`: only a `raise Name` form has an `id`; `raise Call(...)`
and a bare `raise` raise `AttributeError`. -/
def excId : Option ExcExpr → Except String String
  | some (.name i) => .ok i
  | some (.call _ _) => .error "AttributeError: Call object has no attribute id"
  | none => .error "AttributeError: NoneType object has no attribute id"

/-- `stmt.exc.args`: only a `raise Call(...)` form has an `args` attribute. -/
def excArgs : Option ExcExpr → Except String (List String)
  | some (.call _ args) => .ok args
  | some (.name _) => .error "AttributeError: Name object has no attribute args"
  | none => .error "AttributeError: NoneType object has no attribute args"

/-- The tuple `(stmt.exc.id, stmt.exe.args.value if stmt.exc.args else "")`
of generator.py lines 151-153, evaluated left to right: `stmt.exc.id` needs a
Name operand, `stmt.exc.args` needs a Call operand, and `stmt.exe` does not
exist on an `ast.Raise` at all, so no raise statement form evaluates the
tuple successfully. -/
def raisePair (e : Option ExcExpr) : Except String (String × String) :=
  match excId e with
  | .error m => .error m
  | .ok i =>
    match excArgs e with
    | .error m => .error m
    | .ok args =>
      if args.isEmpty then .ok (i, "")
      else .error "AttributeError: Raise object has no attribute exe"

/-- Accumulator of the body loop at generator.py lines 146-155. -/
structure ScanAcc where
  ds : List String
  extra : List Stmt
  exc : List (String × String)
  is_return : Bool
deriving DecidableEq, Repr, Inhabited

/-- The body loop of `extract_function_metadata` (generator.py lines
146-155): every bare string-literal statement is buffered in `doc_strings`
and appended to `extra`; a raise statement evaluates `raisePair` (which
fails); any `ast.Return` sets `is_return`; other statements are skipped. -/
def scanBody : List Stmt → Except String ScanAcc
  | [] => .ok ⟨[], [], [], false⟩
  | .exprStr v :: rest =>
    match scanBody rest with
    | .error m => .error m
    | .ok r => .ok ⟨v :: r.ds, .exprStr v :: r.extra, r.exc, r.is_return⟩
  | .raiseStmt e :: rest =>
    match raisePair e with
    | .error m => .error m
    | .ok p =>
      match scanBody rest with
      | .error m => .error m
      | .ok r => .ok ⟨r.ds, r.extra, p :: r.exc, r.is_return⟩
  | .ret _ :: rest =>
    match scanBody rest with
    | .error m => .error m
    | .ok r => .ok ⟨r.ds, r.extra, r.exc, true⟩
  | .other _ :: rest => scanBody rest

/-- The inner `for param in param_name.keys()` loop with `break`
(generator.py lines 168-173): the first parameter whose `"{param}:"` prefix
matches receives `doc_string.replace(f"{param}:", "")` as its message. -/
def paramClassify (d : String) : List (String × ParamInfo) → List (String × ParamInfo)
  | [] => []
  | (p, info) :: rest =>
    if pyStartsWith d (p ++ ":") then
      (p, { info with msg := some (pyReplace d (p ++ ":") "") }) :: rest
    else
      (p, info) :: paramClassify d rest

/-- Classification of one buffered doc line (generator.py lines 157-173),
first match wins in the order `description:` > `example:` > `return:` >
`exception:` > parameter names; each match stores the line with every
occurrence of the prefix removed (`str.replace`). -/
def classifyOne (st : FuncMetadata × List (String × ParamInfo)) (d : String) :
    FuncMetadata × List (String × ParamInfo) :=
  if pyStartsWith d "description:" then
    ({ st.1 with description := some (pyReplace d "description:" "") }, st.2)
  else if pyStartsWith d "example:" then
    ({ st.1 with exampleMsg := some (pyReplace d "example:" "") }, st.2)
  else if pyStartsWith d "return:" then
    ({ st.1 with returns_message := some (pyReplace d "return:" "") }, st.2)
  else if pyStartsWith d "exception:" then
    ({ st.1 with exception_message := some (pyReplace d "exception:" "") }, st.2)
  else
    (st.1, paramClassify d st.2)

/-- The initial metadata dict of generator.py lines 100-111.  (The dict
initializes `returns` to `""`; that placeholder is only ever observable
through the empty-body early return, where `""` and `None` are equally falsy
in the synthesizer, so the model uses `none`.) -/
def emptyFuncMetadata (n : String) : FuncMetadata :=
  { name := n, description := none, parameters := [], exception_message := none,
    exceptions := [], returns_message := none, returns := none, is_return := false,
    exampleMsg := none, extra := [] }

/-- `extract_function_metadata` (generator.py lines 98-179): early return on
an empty body, then parameter table, return-annotation resolution, body scan
and doc-line classification. -/
def extract_function_metadata (node : FunctionDef) : Except String FuncMetadata :=
  match node.body with
  | [] => .ok (emptyFuncMetadata node.name)
  | _ :: _ =>
    match buildParamTable node.args with
    | .error m => .error m
    | .ok table =>
      match resolveReturns node.returns with
      | .error m => .error m
      | .ok rets =>
        match scanBody node.body with
        | .error m => .error m
        | .ok acc =>
          let st := acc.ds.foldl classifyOne (emptyFuncMetadata node.name, table)
          .ok { st.1 with
                parameters := st.2, exceptions := acc.exc, returns := rets,
                is_return := acc.is_return, extra := acc.extra }

/-- `"\n".join(lines)`. -/
def joinLines : List String → String
  | [] => ""
  | [l] => l
  | l :: rest => l ++ "\n" ++ joinLines rest

/-- The `Author:` footer line (generator.py lines 230-233). -/
def authorLine (a : AuthorInfo) : String :=
  "Author: `" ++ a.name ++ "` <[" ++ a.github ++ "](" ++ githubUrl a ++ "), "
    ++ a.email ++ ">"

/-- One parameter bullet (generator.py lines 193-200): `self`/`cls` render
bare, others as ``- `name`: type - message-or-placeholder``. -/
def paramBullet (p : String × ParamInfo) : String :=
  if p.1 == "self" || p.1 == "cls" then "- `" ++ p.1 ++ "`"
  else "- `" ++ p.1 ++ "`: " ++ p.2.type ++ " - " ++ pyMsgOr p.2.msg

/-- The `## Parameters:` section (generator.py lines 190-201), empty when the
parameter dict is empty. -/
def parametersSection (md : FuncMetadata) : List String :=
  if md.parameters.isEmpty then []
  else "## Parameters:" :: md.parameters.map paramBullet ++ [""]

/-- The `## Returns:` section (generator.py lines 202-214): rendered from
`returns`/`returns_message` when either is truthy, else as `- Any - ...` when
the body contained a return statement, else omitted. -/
def returnsSection (md : FuncMetadata) : List String :=
  if pyTruthy md.returns || pyTruthy md.returns_message then
    ["## Returns:", "- " ++ pyShowOpt md.returns ++ " - " ++ pyMsgOr md.returns_message, ""]
  else if md.is_return then ["## Returns:", "- Any - ...", ""]
  else []

/-- The `## Raises:` section (generator.py lines 215-223). -/
def raisesSection (md : FuncMetadata) : List String :=
  if pyTruthy md.exception_message || !md.exceptions.isEmpty then
    "## Raises:"
      :: (if pyTruthy md.exception_message then ["- " ++ pyShowOpt md.exception_message] else [])
      ++ md.exceptions.map (fun e => "- `" ++ e.1 ++ "`: " ++ e.2) ++ [""]
  else []

/-- The `## Example:` block (generator.py lines 226-229). -/
def exampleSection (md : FuncMetadata) : List String :=
  if pyTruthy md.exampleMsg then
    ["## Example:", "```python\n" ++ pyShowOpt md.exampleMsg ++ "\n```", "---"]
  else []

/-- The `docstring_lines` list of `generate_function_docstring`
(generator.py lines 181-234); `flag` records whether any optional section was
rendered and gates the closing horizontal rule. -/
def generate_function_docstring_lines (a : AuthorInfo) (md : FuncMetadata) :
    List String :=
  let head := ["# " ++ md.name, "---", "### " ++ pyShowOpt md.description, "---"]
  let ps := parametersSection md
  let rs := returnsSection md
  let xs := raisesSection md
  let flag := !ps.isEmpty || !rs.isEmpty || !xs.isEmpty
  head ++ ps ++ rs ++ xs ++ (if flag then ["---"] else [])
    ++ exampleSection md ++ [authorLine a]

/-- `generate_function_docstring`: the joined docstring text. -/
def generate_function_docstring (a : AuthorInfo) (md : FuncMetadata) : String :=
  joinLines (generate_function_docstring_lines a md)

/-- Python `list.remove`: delete the first occurrence (no-op model for the
impossible absent case — `extra` is always drawn from the body). -/
def removeFirst : List Stmt → Stmt → List Stmt
  | [], _ => []
  | x :: rest, y => if x = y then rest else x :: removeFirst rest y

/-- `visit_FunctionDef` (generator.py lines 236-242): extract, delete each
consumed statement from the body, insert the synthesized docstring as the new
first statement.  (`generic_visit` recursion into nested units is not
modelled; nested definitions are opaque statements here.) -/
def visit_FunctionDef (a : AuthorInfo) (node : FunctionDef) :
    Except String FunctionDef :=
  match extract_function_metadata node with
  | .error m => .error m
  | .ok md =>
    .ok { node with
          body := Stmt.exprStr (generate_function_docstring a md)
            :: md.extra.foldl removeFirst node.body }

/-- `returns = node.returns.id if node.returns else None` of the async
extractor (generator.py line 275): direct `.id` access, so any non-`Name`
annotation raises `AttributeError`. -/
def asyncReturns : Option Annot → Except String (Option String)
  | none => .ok none
  | some a =>
    match annId a with
    | .error m => .error m
    | .ok i => .ok (some i)

/-- Accumulator of the async body loop (generator.py lines 277-284). -/
structure AsyncScanAcc where
  ds : List String
  extra : List Stmt
  exc : List (String × String)
deriving DecidableEq, Repr, Inhabited

/-- The async body loop (generator.py lines 277-284): like the sync one but
with no `ast.Return` case. -/
def asyncScanBody : List Stmt → Except String AsyncScanAcc
  | [] => .ok ⟨[], [], []⟩
  | .exprStr v :: rest =>
    match asyncScanBody rest with
    | .error m => .error m
    | .ok r => .ok ⟨v :: r.ds, .exprStr v :: r.extra, r.exc⟩
  | .raiseStmt e :: rest =>
    match raisePair e with
    | .error m => .error m
    | .ok p =>
      match asyncScanBody rest with
      | .error m => .error m
      | .ok r => .ok ⟨r.ds, r.extra, p :: r.exc⟩
  | _ :: rest => asyncScanBody rest

/-- Classification of one async doc line (generator.py lines 286-302); same
prefixes, but the description/return/exception fields are plain strings
(their defaults are the truthy `"..."`). -/
def asyncClassifyOne (st : AsyncFuncMetadata × List (String × ParamInfo)) (d : String) :
    AsyncFuncMetadata × List (String × ParamInfo) :=
  if pyStartsWith d "description:" then
    ({ st.1 with description := pyReplace d "description:" "" }, st.2)
  else if pyStartsWith d "example:" then
    ({ st.1 with exampleMsg := some (pyReplace d "example:" "") }, st.2)
  else if pyStartsWith d "return:" then
    ({ st.1 with returns_message := pyReplace d "return:" "" }, st.2)
  else if pyStartsWith d "exception:" then
    ({ st.1 with exception_message := pyReplace d "exception:" "" }, st.2)
  else
    (st.1, paramClassify d st.2)

/-- The initial async metadata dict (generator.py lines 248-258), with the
truthy `"..."` defaults.  (As in the sync case, the `""` initializer of
`returns` is modelled as `none`.) -/
def emptyAsyncMetadata (n : String) : AsyncFuncMetadata :=
  { name := n, description := "...", parameters := [], exception_message := "...",
    exceptions := [], returns_message := "...", returns := none,
    exampleMsg := none, extra := [] }

/-- `extract_async_function_metadata` (generator.py lines 244-308). -/
def extract_async_function_metadata (node : AsyncFunctionDef) :
    Except String AsyncFuncMetadata :=
  match node.body with
  | [] => .ok (emptyAsyncMetadata node.name)
  | _ :: _ =>
    match buildParamTable node.args with
    | .error m => .error m
    | .ok table =>
      match asyncReturns node.returns with
      | .error m => .error m
      | .ok rets =>
        match asyncScanBody node.body with
        | .error m => .error m
        | .ok acc =>
          let st := acc.ds.foldl asyncClassifyOne (emptyAsyncMetadata node.name, table)
          .ok { st.1 with
                parameters := st.2, exceptions := acc.exc, returns := rets,
                extra := acc.extra }

/-- The async `## Parameters:` section (generator.py lines 321-332). -/
def asyncParametersSection (md : AsyncFuncMetadata) : List String :=
  if md.parameters.isEmpty then []
  else "## Parameters:" :: md.parameters.map paramBullet ++ [""]

/-- The async `## Returns:` section (generator.py lines 333-340): there is
no `is_return` fallback, and `returns_message` is a plain string whose
default `"..."` is truthy. -/
def asyncReturnsSection (md : AsyncFuncMetadata) : List String :=
  if pyTruthy md.returns || !(md.returns_message == "") then
    ["## Returns:", "- " ++ pyShowOpt md.returns ++ " - " ++ pyMsgOrS md.returns_message, ""]
  else []

/-- The async `## Raises:` section (generator.py lines 341-348). -/
def asyncRaisesSection (md : AsyncFuncMetadata) : List String :=
  if !(md.exception_message == "") || !md.exceptions.isEmpty then
    "## Raises:"
      :: (if !(md.exception_message == "") then ["- " ++ md.exception_message] else [])
      ++ md.exceptions.map (fun e => "- `" ++ e.1 ++ "`: " ++ e.2) ++ [""]
  else []

/-- The async `## Example:` block (generator.py lines 351-354). -/
def asyncExampleSection (md : AsyncFuncMetadata) : List String :=
  if pyTruthy md.exampleMsg then
    ["## Example:", "```python\n" ++ pyShowOpt md.exampleMsg ++ "\n```", "---"]
  else []

/-- The `docstring_lines` list of `generate_async_function_docstring`
(generator.py lines 310-359). -/
def generate_async_docstring_lines (a : AuthorInfo) (md : AsyncFuncMetadata) :
    List String :=
  let head := ["# " ++ md.name, "---", "### " ++ md.description, "---"]
  let ps := asyncParametersSection md
  let rs := asyncReturnsSection md
  let xs := asyncRaisesSection md
  let flag := !ps.isEmpty || !rs.isEmpty || !xs.isEmpty
  head ++ ps ++ rs ++ xs ++ (if flag then ["---"] else [])
    ++ asyncExampleSection md ++ [authorLine a]

/-- `generate_async_function_docstring`: the joined docstring text. -/
def generate_async_function_docstring (a : AuthorInfo) (md : AsyncFuncMetadata) :
    String :=
  joinLines (generate_async_docstring_lines a md)

/-- `visit_AsyncFunctionDef` (generator.py lines 361-367). -/
def visit_AsyncFunctionDef (a : AuthorInfo) (node : AsyncFunctionDef) :
    Except String AsyncFunctionDef :=
  match extract_async_function_metadata node with
  | .error m => .error m
  | .ok md =>
    .ok { node with
          body := Stmt.exprStr (generate_async_function_docstring a md)
            :: md.extra.foldl removeFirst node.body }

/-- A parsed module, restricted to the routine nodes the visitor rewrites.
(Class definitions and document-order interleaving are outside the claims.) -/
structure PyModule where
  funcs : List FunctionDef
  asyncs : List AsyncFunctionDef
deriving DecidableEq, Repr, Inhabited

/-- The visitor pass over the sync routines of a module; the first Python
exception aborts the whole `docstring_generator.visit(tree)` call. -/
def visitFuncs (a : AuthorInfo) : List FunctionDef → Except String (List FunctionDef)
  | [] => .ok []
  | f :: rest =>
    match visit_FunctionDef a f with
    | .error m => .error m
    | .ok f2 =>
      match visitFuncs a rest with
      | .error m => .error m
      | .ok rest2 => .ok (f2 :: rest2)

/-- The visitor pass over the async routines of a module. -/
def visitAsyncFuncs (a : AuthorInfo) :
    List AsyncFunctionDef → Except String (List AsyncFunctionDef)
  | [] => .ok []
  | f :: rest =>
    match visit_AsyncFunctionDef a f with
    | .error m => .error m
    | .ok f2 =>
      match visitAsyncFuncs a rest with
      | .error m => .error m
      | .ok rest2 => .ok (f2 :: rest2)

/-- `docstring_generator.visit(tree)` over the modelled module. -/
def visitModule (a : AuthorInfo) (m : PyModule) : Except String PyModule :=
  match visitFuncs a m.funcs with
  | .error e => .error e
  | .ok fs =>
    match visitAsyncFuncs a m.asyncs with
    | .error e => .error e
    | .ok as2 => .ok ⟨fs, as2⟩

/-- External collaborator `astor.to_source` (excluded from the core by the
spec); modelled as a total serialization of the mutated tree. -/
def astor_to_source (m : PyModule) : String := toString (repr m)

/-- The observable outcome of one `add_docstrings_to_file` invocation:
the returned `(success, message)` pair, plus `written`, the content written
to the output file (`none` when no write happened). -/
structure FileOutcome where
  success : Bool
  message : String
  written : Option String
deriving DecidableEq, Repr, Inhabited

/-- `add_docstrings_to_file` (generator.py lines 370-405).  Reading and
parsing the input are external, so the input is the parse outcome itself; a
parse error returns the formatted failure (modelled abstractly), an exception
inside `visit`/`to_source` returns `(False, str(e))`, and only on full
success are the output-path manipulations (lines 397-400) and the write
(lines 402-403) performed. -/
def add_docstrings_to_file (a : AuthorInfo) (parsed : Except String PyModule) :
    FileOutcome :=
  match parsed with
  | .error e => { success := false, message := e, written := none }
  | .ok tree =>
    match visitModule a tree with
    | .error e => { success := false, message := e, written := none }
    | .ok tree2 =>
      { success := true, message := "Docstrings added",
        written := some (astor_to_source tree2) }

/-- Whether both stages gating the output write succeed (parse, then
visit-and-render): the write at generator.py lines 402-403 is reached exactly
when this is `true`. -/
def stagesOk (a : AuthorInfo) (parsed : Except String PyModule) : Bool :=
  match parsed with
  | .error _ => false
  | .ok tree => (visitModule a tree).toBool

/-- `true` exactly on bare string-literal statements. -/
def isStr : Stmt → Bool
  | .exprStr _ => true
  | _ => false

/-- `true` exactly on raise statements. -/
def isRaise : Stmt → Bool
  | .raiseStmt _ => true
  | _ => false

/-- `true` exactly on return statements. -/
def isRetStmt : Stmt → Bool
  | .ret _ => true
  | _ => false

/-- The string values of the bare string-literal statements of a body, in
order (the `doc_strings` buffer). -/
def docStrs : List Stmt → List String
  | [] => []
  | .exprStr v :: rest => v :: docStrs rest
  | _ :: rest => docStrs rest

/-- The bare string-literal statements of a body, in order (the `extra`
list). -/
def strStmts (body : List Stmt) : List Stmt := body.filter isStr

/-- Whether the body contains any `ast.Return` statement. -/
def anyRet (body : List Stmt) : Bool := body.any isRetStmt

/-- Whether `pat` occurs as a contiguous subsequence. -/
def hasOccurrence (pat : List Char) : List Char → Bool
  | [] => pat.isEmpty
  | c :: rest => pat.isPrefixOf (c :: rest) || hasOccurrence pat rest

/-- The body of the routine produced by a visit, `[]` on failure. -/
def bodyOf : Except String FunctionDef → List Stmt
  | .ok f => f.body
  | .error _ => []

/-- Concrete author identity used by the concrete evaluations below. -/
def cAuthor : AuthorInfo := { name := "Ada Lovelace", github := "ada", email := "ada@example.com" }

/-- C1 counterexample input: a body whose leading string literal matches no
convention prefix, followed by an ordinary statement. -/
def c1fun : FunctionDef :=
  { name := "f", args := [], returns := none,
    body := [Stmt.exprStr "hello world", Stmt.other 0] }

/-- Metadata extracted from `c1fun` (defined, as are the similar values
below, by running the embedded extractor). -/
def c1md : FuncMetadata := ((extract_function_metadata c1fun).toOption).getD default

/-- C3 input: a routine whose single body statement is a `description:`
convention line. -/
def c3fun : FunctionDef :=
  { name := "f", args := [], returns := none,
    body := [Stmt.exprStr "description: hi"] }

/-- First pipeline run on `c3fun`. -/
def c3run1 : Except String FunctionDef := visit_FunctionDef cAuthor c3fun

/-- The routine after the first run. -/
def c3fun1 : FunctionDef := (c3run1.toOption).getD default

/-- Second pipeline run, on the output of the first. -/
def c3run2 : Except String FunctionDef := visit_FunctionDef cAuthor c3fun1

/-- The documentation block synthesized by the first run. -/
def c3doc1 : String :=
  generate_function_docstring cAuthor
    (((extract_function_metadata c3fun).toOption).getD default)

/-- Metadata extracted from the first run's output. -/
def c3md1 : FuncMetadata := ((extract_function_metadata c3fun1).toOption).getD default

/-- C4 counterexample input: zero convention statements, but one parameter. -/
def c4fun : FunctionDef :=
  { name := "f", args := [{ arg := "x", ann := none }], returns := none,
    body := [Stmt.other 0] }

/-- The docstring lines synthesized for `c4fun`. -/
def c4lines : List String :=
  generate_function_docstring_lines cAuthor
    (((extract_function_metadata c4fun).toOption).getD default)

/-- C4 witness input: zero convention statements, zero parameters, no
annotation, no return, no raise. -/
def c4wfun : FunctionDef :=
  { name := "empty", args := [], returns := none, body := [Stmt.other 3] }

/-- Metadata extracted from `c4wfun`. -/
def c4wmd : FuncMetadata := ((extract_function_metadata c4wfun).toOption).getD default

/-- C5 counterexample input: a return-with-value statement, no `return:`
convention line, but an `int` return annotation. -/
def c5fun : FunctionDef :=
  { name := "f", args := [], returns := some (Annot.name "int"),
    body := [Stmt.ret true] }

/-- The docstring lines synthesized for `c5fun`. -/
def c5lines : List String :=
  generate_function_docstring_lines cAuthor
    (((extract_function_metadata c5fun).toOption).getD default)

/-- C5 witness input: a return-with-value statement, no `return:` line and no
return annotation. -/
def c5wfun : FunctionDef :=
  { name := "g", args := [], returns := none,
    body := [Stmt.other 1, Stmt.ret true] }

/-- Metadata extracted from `c5wfun`. -/
def c5wmd : FuncMetadata := ((extract_function_metadata c5wfun).toOption).getD default

/-- C2 failing input: `def f(): raise ValueError` (a raise with a Name
operand and no call argument). -/
def c2fun : FunctionDef :=
  { name := "f", args := [], returns := none,
    body := [Stmt.raiseStmt (some (ExcExpr.name "ValueError"))] }

/-- The module holding only `c2fun`. -/
def c2mod : PyModule := { funcs := [c2fun], asyncs := [] }

/-- C7 witness input: return annotation `int | str`. -/
def c7fun : FunctionDef :=
  { name := "g", args := [], returns := some (Annot.binOp (Annot.name "int") (Annot.name "str")),
    body := [Stmt.other 0] }

/-- Metadata extracted from `c7fun`. -/
def c7md : FuncMetadata := ((extract_function_metadata c7fun).toOption).getD default

/-- C9 witness input: a parameter annotated `list[int]` (an `ast.Subscript`,
which has no `.id`). -/
def c9fun : FunctionDef :=
  { name := "g", args := [{ arg := "x", ann := some Annot.subscript }], returns := none,
    body := [Stmt.other 0] }

/-- The module holding only `c9fun`. -/
def c9mod : PyModule := { funcs := [c9fun], asyncs := [] }

/-- C10 witness input: an async routine with no convention lines, no return
annotation and no raise statements. -/
def c10fun : AsyncFunctionDef :=
  { name := "h", args := [], returns := none, body := [Stmt.other 0] }

/-- Metadata extracted from `c10fun`. -/
def c10md : AsyncFuncMetadata :=
  ((extract_async_function_metadata c10fun).toOption).getD default

/-! ### Basic lemmas about the embedded operations -/

/-- No form of raise operand survives the attribute accesses of
generator.py lines 151-153. -/
theorem raisePair_not_ok (e : Option ExcExpr) : (raisePair e).toBool = false := by
  match e with
  | none => rfl
  | some (.name i) => rfl
  | some (.call f args) => rfl

/-- Inversion of a successful body scan: the buffer is exactly the string
statements, nothing else was recorded as consumed, no exception pair was ever
produced, and `is_return` reflects the presence of a return statement. -/
theorem scanBody_ok (body : List Stmt) (acc : ScanAcc) (h : scanBody body = .ok acc) :
    acc.ds = docStrs body ∧ acc.extra = strStmts body ∧ acc.exc = [] ∧
      acc.is_return = anyRet body := by
  induction body generalizing acc with
  | nil =>
    simp only [scanBody, Except.ok.injEq] at h
    subst h
    simp [docStrs, strStmts, anyRet]
  | cons s rest ih =>
    cases s with
    | exprStr v =>
      simp only [scanBody] at h
      cases h2 : scanBody rest with
      | error m => rw [h2] at h; exact absurd h (by simp)
      | ok r =>
        rw [h2] at h
        simp only [Except.ok.injEq] at h
        obtain ⟨e1, e2, e3, e4⟩ := ih r h2
        subst h
        simp [docStrs, strStmts, anyRet, isStr, isRetStmt, e1, e2, e3, e4,
          List.filter_cons, List.any_cons]
    | raiseStmt e =>
      simp only [scanBody] at h
      have hrp := raisePair_not_ok e
      cases h2 : raisePair e with
      | error m => rw [h2] at h; exact absurd h (by simp)
      | ok p => rw [h2] at hrp; exact absurd hrp (by simp [Except.toBool])
    | ret b =>
      simp only [scanBody] at h
      cases h2 : scanBody rest with
      | error m => rw [h2] at h; exact absurd h (by simp)
      | ok r =>
        rw [h2] at h
        simp only [Except.ok.injEq] at h
        obtain ⟨e1, e2, e3, e4⟩ := ih r h2
        subst h
        simp [docStrs, strStmts, anyRet, isStr, isRetStmt, e1, e2, e3,
          List.filter_cons, List.any_cons]
    | other t =>
      simp only [scanBody] at h
      obtain ⟨e1, e2, e3, e4⟩ := ih acc h
      refine ⟨?_, ?_, e3, ?_⟩ <;>
        simp [docStrs, strStmts, anyRet, isStr, isRetStmt, e1, e2, e4,
          List.filter_cons, List.any_cons]

/-- Inversion of a successful async body scan. -/
theorem asyncScanBody_ok (body : List Stmt) (acc : AsyncScanAcc)
    (h : asyncScanBody body = .ok acc) :
    acc.ds = docStrs body ∧ acc.extra = strStmts body ∧ acc.exc = [] := by
  induction body generalizing acc with
  | nil =>
    simp only [asyncScanBody, Except.ok.injEq] at h
    subst h
    simp [docStrs, strStmts]
  | cons s rest ih =>
    cases s with
    | exprStr v =>
      simp only [asyncScanBody] at h
      cases h2 : asyncScanBody rest with
      | error m => rw [h2] at h; exact absurd h (by simp)
      | ok r =>
        rw [h2] at h
        simp only [Except.ok.injEq] at h
        obtain ⟨e1, e2, e3⟩ := ih r h2
        subst h
        simp [docStrs, strStmts, isStr, e1, e2, e3, List.filter_cons]
    | raiseStmt e =>
      simp only [asyncScanBody] at h
      have hrp := raisePair_not_ok e
      cases h2 : raisePair e with
      | error m => rw [h2] at h; exact absurd h (by simp)
      | ok p => rw [h2] at hrp; exact absurd hrp (by simp [Except.toBool])
    | ret b =>
      simp only [asyncScanBody] at h
      obtain ⟨e1, e2, e3⟩ := ih acc h
      refine ⟨?_, ?_, e3⟩ <;> simp [docStrs, strStmts, isStr, e1, e2, List.filter_cons]
    | other t =>
      simp only [asyncScanBody] at h
      obtain ⟨e1, e2, e3⟩ := ih acc h
      refine ⟨?_, ?_, e3⟩ <;> simp [docStrs, strStmts, isStr, e1, e2, List.filter_cons]

/-- Removing only string-literal statements from a list headed by a
non-string statement keeps the head in place. -/
theorem foldl_removeFirst_cons (s : Stmt) (hs : isStr s = false) :
    ∀ (E : List Stmt), (∀ x ∈ E, isStr x = true) →
      ∀ b, E.foldl removeFirst (s :: b) = s :: E.foldl removeFirst b := by
  intro E
  induction E with
  | nil => intro _ b; rfl
  | cons x E ih =>
    intro hE b
    have hx : isStr x = true := hE x (by simp)
    have hne : ¬(s = x) := by
      intro he
      rw [he, hx] at hs
      exact Bool.noConfusion hs
    simp only [List.foldl_cons, removeFirst, if_neg hne]
    exact ih (fun y hy => hE y (List.mem_cons_of_mem x hy)) (removeFirst b x)

/-- Deleting, one `list.remove` call at a time, every string-literal
statement of a body from that body leaves exactly the non-string statements,
in order. -/
theorem foldl_removeFirst_strs (body : List Stmt) :
    (strStmts body).foldl removeFirst body = body.filter (fun s => !isStr s) := by
  induction body with
  | nil => rfl
  | cons s rest ih =>
    cases hs : isStr s with
    | true =>
      have hst : strStmts (s :: rest) = s :: strStmts rest := by
        simp [strStmts, List.filter_cons, hs]
      rw [hst, List.foldl_cons]
      have hrm : removeFirst (s :: rest) s = rest := by simp [removeFirst]
      rw [hrm, ih]
      simp [List.filter_cons, hs]
    | false =>
      have hst : strStmts (s :: rest) = strStmts rest := by
        simp [strStmts, List.filter_cons, hs]
      rw [hst,
        foldl_removeFirst_cons s hs (strStmts rest)
          (fun x hx => List.of_mem_filter hx) rest,
        ih]
      simp [List.filter_cons, hs]

/-- Inversion of a successful extraction over a nonempty body: every stage
succeeded and the metadata record is the assembled one. -/
theorem extract_ok_inv (f : FunctionDef) (s0 : Stmt) (rest0 : List Stmt)
    (hb : f.body = s0 :: rest0) (md : FuncMetadata)
    (h : extract_function_metadata f = .ok md) :
    ∃ table rets acc,
      buildParamTable f.args = .ok table ∧
      resolveReturns f.returns = .ok rets ∧
      scanBody f.body = .ok acc ∧
      md = { (acc.ds.foldl classifyOne (emptyFuncMetadata f.name, table)).1 with
             parameters := (acc.ds.foldl classifyOne (emptyFuncMetadata f.name, table)).2,
             exceptions := acc.exc, returns := rets,
             is_return := acc.is_return, extra := acc.extra } := by
  rw [hb]
  simp only [extract_function_metadata, hb] at h
  split at h
  · exact absurd h (by simp)
  · split at h
    · exact absurd h (by simp)
    · split at h
      · exact absurd h (by simp)
      · rename_i x1 table htable x2 rets hrets x3 acc hacc
        simp only [Except.ok.injEq] at h
        exact ⟨table, rets, acc, htable, hrets, hacc, h.symm⟩

/-- Extraction of an empty body returns the initial record unchanged. -/
theorem extract_nil (f : FunctionDef) (hb : f.body = []) :
    extract_function_metadata f = .ok (emptyFuncMetadata f.name) := by
  simp [extract_function_metadata, hb]

/-- The `extra` list of a successful extraction is exactly the string-literal
statements of the body, classified or not. -/
theorem extract_extra (f : FunctionDef) (md : FuncMetadata)
    (h : extract_function_metadata f = .ok md) : md.extra = strStmts f.body := by
  cases hb : f.body with
  | nil =>
    rw [extract_nil f hb] at h
    simp only [Except.ok.injEq] at h
    rw [← h]
    rfl
  | cons s rest =>
    obtain ⟨table, rets, acc, _, _, hacc, hmd⟩ := extract_ok_inv f s rest hb md h
    subst hmd
    have h2 := (scanBody_ok f.body acc hacc).2.1
    rw [hb] at h2
    simpa using h2

/-- Shape of a successful `visit_FunctionDef`: the new body is the
synthesized docstring statement followed by exactly the non-string
statements of the original body, in their original order. -/
theorem visit_shape (a : AuthorInfo) (f : FunctionDef) (md : FuncMetadata)
    (h : extract_function_metadata f = .ok md) :
    visit_FunctionDef a f =
      .ok { f with
            body := Stmt.exprStr (generate_function_docstring a md)
              :: f.body.filter (fun s => !isStr s) } := by
  simp only [visit_FunctionDef, h]
  rw [extract_extra f md h, foldl_removeFirst_strs]

/-- A buffered doc line always came from a string-literal statement of the
body. -/
theorem mem_docStrs (body : List Stmt) (v : String) (h : v ∈ docStrs body) :
    Stmt.exprStr v ∈ body := by
  induction body with
  | nil => simp [docStrs] at h
  | cons s rest ih =>
    cases s with
    | exprStr w =>
      simp only [docStrs, List.mem_cons] at h
      cases h with
      | inl h => simp [h]
      | inr h => exact List.mem_cons_of_mem _ (ih h)
    | raiseStmt e => exact List.mem_cons_of_mem _ (ih (by simpa [docStrs] using h))
    | ret b => exact List.mem_cons_of_mem _ (ih (by simpa [docStrs] using h))
    | other t => exact List.mem_cons_of_mem _ (ih (by simpa [docStrs] using h))

/-- A body with no string-literal statement buffers no doc line. -/
theorem docStrs_eq_nil (body : List Stmt) (h : ∀ s ∈ body, isStr s = false) :
    docStrs body = [] := by
  induction body with
  | nil => rfl
  | cons s rest ih =>
    cases s with
    | exprStr v => exact absurd (h (Stmt.exprStr v) (by simp)) (by simp [isStr])
    | raiseStmt e => exact ih (fun x hx => h x (List.mem_cons_of_mem _ hx))
    | ret b => exact ih (fun x hx => h x (List.mem_cons_of_mem _ hx))
    | other t => exact ih (fun x hx => h x (List.mem_cons_of_mem _ hx))

/-- A body with no return statement leaves `is_return` unset. -/
theorem anyRet_eq_false (body : List Stmt) (h : ∀ s ∈ body, isRetStmt s = false) :
    anyRet body = false := by
  simp only [anyRet, List.any_eq_false]
  intro s hs
  simp [h s hs]

/-- Classifying one doc line that does not begin with `return:` cannot touch
the `returns_message` field. -/
theorem classifyOne_returns_message (st : FuncMetadata × List (String × ParamInfo))
    (d : String) (hd : pyStartsWith d "return:" = false) :
    (classifyOne st d).1.returns_message = st.1.returns_message := by
  unfold classifyOne
  split_ifs with h1 h2 h3 h4 <;> simp_all

/-- Classifying any sequence of doc lines none of which begins with
`return:` leaves `returns_message` unchanged. -/
theorem foldl_classifyOne_returns_message (ds : List String)
    (h : ∀ d ∈ ds, pyStartsWith d "return:" = false) :
    ∀ st : FuncMetadata × List (String × ParamInfo),
      (ds.foldl classifyOne st).1.returns_message = st.1.returns_message := by
  induction ds with
  | nil => intro st; rfl
  | cons d ds ih =>
    intro st
    rw [List.foldl_cons, ih (fun x hx => h x (List.mem_cons_of_mem d hx)),
      classifyOne_returns_message st d (h d (by simp))]

/-- Inversion of a successful async extraction over a nonempty body. -/
theorem extract_async_ok_inv (f : AsyncFunctionDef) (s0 : Stmt) (rest0 : List Stmt)
    (hb : f.body = s0 :: rest0) (md : AsyncFuncMetadata)
    (h : extract_async_function_metadata f = .ok md) :
    ∃ table rets acc,
      buildParamTable f.args = .ok table ∧
      asyncReturns f.returns = .ok rets ∧
      asyncScanBody f.body = .ok acc ∧
      md = { (acc.ds.foldl asyncClassifyOne (emptyAsyncMetadata f.name, table)).1 with
             parameters := (acc.ds.foldl asyncClassifyOne (emptyAsyncMetadata f.name, table)).2,
             exceptions := acc.exc, returns := rets, extra := acc.extra } := by
  rw [hb]
  simp only [extract_async_function_metadata, hb] at h
  split at h
  · exact absurd h (by simp)
  · split at h
    · exact absurd h (by simp)
    · split at h
      · exact absurd h (by simp)
      · rename_i x1 table htable x2 rets hrets x3 acc hacc
        simp only [Except.ok.injEq] at h
        exact ⟨table, rets, acc, htable, hrets, hacc, h.symm⟩

/-- A list is a `isPrefixOf` of itself followed by anything. -/
theorem isPrefixOf_append_self (l r : List Char) : l.isPrefixOf (l ++ r) = true := by
  induction l with
  | nil => simp [List.isPrefixOf]
  | cons c cs ih => simp [List.isPrefixOf, ih]

/-- When the pattern has no occurrence in the text, replacement is the
identity (given enough fuel). -/
theorem replaceFuel_no_occ (pat rep : List Char) :
    ∀ (fuel : Nat) (l : List Char), hasOccurrence pat l = false →
      l.length ≤ fuel → replaceFuel pat rep fuel l = l := by
  intro fuel
  induction fuel with
  | zero => intro l _ _; cases l <;> rfl
  | succ fuel ih =>
    intro l hocc hlen
    cases l with
    | nil => rfl
    | cons c cs =>
      simp only [hasOccurrence, Bool.or_eq_false_iff] at hocc
      simp only [replaceFuel, hocc.1, Bool.false_eq_true, if_false]
      rw [ih cs hocc.2 (by simpa using Nat.le_of_succ_le_succ hlen)]

/-- `(s ++ t).data = s.data ++ t.data`. -/
theorem string_data_append (s t : String) : (s ++ t).data = s.data ++ t.data := by
  cases s; cases t; rfl

/-- A string is determined by its character list. -/
theorem string_mk_data (s : String) : String.mk s.data = s := by
  cases s; rfl

/-- Stripping law for Python `replace` with the empty replacement: when the
pattern leads the text and has no later occurrence, the result is exactly the
remainder after the pattern. -/
theorem pyReplace_strip (pre rest : String) (hne : pre.data ≠ [])
    (hocc : hasOccurrence pre.data rest.data = false) :
    pyReplace (pre ++ rest) pre "" = rest := by
  rw [pyReplace, if_neg (by simp [List.isEmpty_iff, hne])]
  cases hpre : pre.data with
  | nil => exact absurd hpre hne
  | cons c ptail =>
    have hdata : (pre ++ rest).data = c :: (ptail ++ rest.data) := by
      rw [string_data_append, hpre, List.cons_append]
    have hlen : (c :: (ptail ++ rest.data)).length = (ptail.length + rest.data.length) + 1 := by
      simp [List.length_append]
    rw [hdata, hlen, replaceFuel]
    have hpref : (c :: ptail).isPrefixOf (c :: (ptail ++ rest.data)) = true := by
      simp only [List.isPrefixOf]
      simp [isPrefixOf_append_self]
    rw [if_pos hpref]
    have hdrop : ((ptail ++ rest.data).drop ((c :: ptail).length - 1)) = rest.data := by
      simp only [List.length_cons, Nat.add_sub_cancel]
      exact List.drop_left ptail rest.data
    rw [hdrop,
      replaceFuel_no_occ (c :: ptail) "".data (ptail.length + rest.data.length) rest.data
        (by rw [← hpre]; exact hocc) (by omega)]
    simp only [List.nil_append]

/-- A parameter whose annotation access fails makes the whole dict
comprehension fail, wherever it sits in the parameter list. -/
theorem buildParamTableAux_fail (p : Param) (hp : (paramType p.ann).toBool = false) :
    ∀ (ps : List Param), p ∈ ps →
      ∀ table, (buildParamTableAux table ps).toBool = false := by
  intro ps
  induction ps with
  | nil => intro h; cases h
  | cons q ps ih =>
    intro hmem table
    cases hq : paramType q.ann with
    | error m => simp [buildParamTableAux, hq, Except.toBool]
    | ok t =>
      cases List.mem_cons.mp hmem with
      | inl h =>
        rw [h, hq] at hp
        exact absurd hp (by simp [Except.toBool])
      | inr h =>
        simp only [buildParamTableAux, hq]
        exact ih h _

/-- Extraction over a nonempty body fails as soon as one parameter
annotation has no `.id`. -/
theorem extract_fail_of_param (f : FunctionDef) (p : Param) (hp : p ∈ f.args)
    (hann : (paramType p.ann).toBool = false) (hne : f.body ≠ []) :
    (extract_function_metadata f).toBool = false := by
  have hbt : (buildParamTable f.args).toBool = false :=
    buildParamTableAux_fail p hann f.args hp []
  cases hb : f.body with
  | nil => exact absurd hb hne
  | cons s rest =>
    cases h1 : buildParamTable f.args with
    | ok table => rw [h1] at hbt; exact absurd hbt (by simp [Except.toBool])
    | error m => simp [extract_function_metadata, hb, h1, Except.toBool]

/-- A failed extraction fails the visit of that node. -/
theorem visit_fail (a : AuthorInfo) (f : FunctionDef)
    (h : (extract_function_metadata f).toBool = false) :
    (visit_FunctionDef a f).toBool = false := by
  cases he : extract_function_metadata f with
  | ok md => rw [he] at h; exact absurd h (by simp [Except.toBool])
  | error m => simp [visit_FunctionDef, he, Except.toBool]

/-- A failing routine fails the whole pass over the routine list. -/
theorem visitFuncs_fail (a : AuthorInfo) (f : FunctionDef)
    (hf : (visit_FunctionDef a f).toBool = false) :
    ∀ fs : List FunctionDef, f ∈ fs → (visitFuncs a fs).toBool = false := by
  intro fs
  induction fs with
  | nil => intro h; cases h
  | cons g fs ih =>
    intro hmem
    cases hg : visit_FunctionDef a g with
    | error m => simp [visitFuncs, hg, Except.toBool]
    | ok g2 =>
      cases List.mem_cons.mp hmem with
      | inl h =>
        rw [h, hg] at hf
        exact absurd hf (by simp [Except.toBool])
      | inr h =>
        have hrest := ih h
        cases h2 : visitFuncs a fs with
        | error m => simp [visitFuncs, hg, h2, Except.toBool]
        | ok r => rw [h2] at hrest; exact absurd hrest (by simp [Except.toBool])

/-- A failing sync pass fails the whole tree visit. -/
theorem visitModule_fail (a : AuthorInfo) (m : PyModule)
    (h : (visitFuncs a m.funcs).toBool = false) :
    (visitModule a m).toBool = false := by
  cases h1 : visitFuncs a m.funcs with
  | ok fs => rw [h1] at h; exact absurd h (by simp [Except.toBool])
  | error e => simp [visitModule, h1, Except.toBool]

/-- A failing tree visit makes `add_docstrings_to_file` return a failure
with nothing written. -/
theorem add_fail (a : AuthorInfo) (m : PyModule)
    (h : (visitModule a m).toBool = false) :
    (add_docstrings_to_file a (.ok m)).success = false ∧
      (add_docstrings_to_file a (.ok m)).written = none := by
  cases h1 : visitModule a m with
  | ok t => rw [h1] at h; exact absurd h (by simp [Except.toBool])
  | error e => simp [add_docstrings_to_file, h1]

/-! ### Claim theorems -/

/-- Claim C1, counterexample: the body statement `"hello world"` matches no
convention prefix, so the claim says it remains in the body un-consumed;
the pipeline nevertheless deletes it (every bare string-literal statement is
appended to `extra` before classification, generator.py lines 147-149). -/
theorem unclassified_string_is_consumed_cx :
    Stmt.exprStr "hello world" ∈ c1fun.body ∧
    bodyOf (visit_FunctionDef cAuthor c1fun) ≠ [] ∧
    Stmt.exprStr "hello world" ∉ bodyOf (visit_FunctionDef cAuthor c1fun) := by
  decide

/-- Claim C1 (amended): for every routine whose extraction succeeds, the
mutated body is the synthesized block followed by exactly the non-string
statements of the original body — all bare string-literal statements are
consumed whether or not they were classified, and every other statement
keeps its original relative order and unchanged content. -/
theorem visit_consumes_all_string_stmts (a : AuthorInfo) (f : FunctionDef)
    (md : FuncMetadata) (h : extract_function_metadata f = .ok md) :
    visit_FunctionDef a f =
      .ok { f with
            body := Stmt.exprStr (generate_function_docstring a md)
              :: f.body.filter (fun s => !isStr s) } :=
  visit_shape a f md h

/-- Witness for `visit_consumes_all_string_stmts` at the concrete input
`c1fun`. -/
theorem visit_consumes_all_string_stmts_witness :
    visit_FunctionDef cAuthor c1fun =
      .ok { c1fun with
            body := Stmt.exprStr (generate_function_docstring cAuthor c1md)
              :: c1fun.body.filter (fun s => !isStr s) } :=
  visit_consumes_all_string_stmts cAuthor c1fun c1md (by rfl)

/-- Claim C2: the claim says a raise statement contributes an exception pair
and renders a Raises bullet; in the code every raise statement makes the
attribute accesses of generator.py lines 151-153 fail, so extraction raises
`AttributeError` and `add_docstrings_to_file` fails with nothing written. -/
theorem raise_stmt_crashes_extraction :
    (extract_function_metadata c2fun).toBool = false ∧
    (add_docstrings_to_file cAuthor (.ok c2mod)).success = false ∧
    (add_docstrings_to_file cAuthor (.ok c2mod)).written = none := by
  decide

/-- Claim C7: for every routine with a nonempty body whose return annotation
is a binary union of two alternatives, each a plain identifier or a literal,
the extracted Returns type string is `"<left> or <right>"`. -/
theorem binop_return_renders_or (f : FunctionDef) (x y : Annot) (l r : String)
    (md : FuncMetadata) (hne : f.body ≠ [])
    (hret : f.returns = some (Annot.binOp x y))
    (hx : x = Annot.name l ∨ x = Annot.const l)
    (hy : y = Annot.name r ∨ y = Annot.const r)
    (h : extract_function_metadata f = .ok md) :
    md.returns = some (l ++ " or " ++ r) := by
  cases hb : f.body with
  | nil => exact absurd hb hne
  | cons s rest =>
    obtain ⟨table, rets, acc, _, hrets, _, hmd⟩ := extract_ok_inv f s rest hb md h
    subst hmd
    rw [hret] at hrets
    have hres : resolveReturns (some (Annot.binOp x y)) = .ok (some (l ++ " or " ++ r)) := by
      cases hx with
      | inl hx =>
        cases hy with
        | inl hy => subst hx; subst hy; rfl
        | inr hy => subst hx; subst hy; rfl
      | inr hx =>
        cases hy with
        | inl hy => subst hx; subst hy; rfl
        | inr hy => subst hx; subst hy; rfl
    rw [hres] at hrets
    simp only [Except.ok.injEq] at hrets
    simpa using hrets.symm

/-- Witness for `binop_return_renders_or` at the concrete input `c7fun`
(annotation `int | str`). -/
theorem binop_return_renders_or_witness :
    c7md.returns = some ("int" ++ " or " ++ "str") :=
  binop_return_renders_or c7fun (Annot.name "int") (Annot.name "str") "int" "str"
    c7md (by decide) rfl (Or.inl rfl) (Or.inl rfl) (by rfl)

/-- Claim C8: when parsing fails or any exception occurs during
visiting/rendering, `add_docstrings_to_file` returns a failure and writes
nothing — the output write is gated on full success of every stage. -/
theorem output_written_only_on_success (a : AuthorInfo)
    (parsed : Except String PyModule) (h : stagesOk a parsed = false) :
    (add_docstrings_to_file a parsed).success = false ∧
      (add_docstrings_to_file a parsed).written = none := by
  cases parsed with
  | error e => simp [add_docstrings_to_file]
  | ok m =>
    simp only [stagesOk] at h
    exact add_fail a m h

/-- Witness for `output_written_only_on_success` at a concrete parse
failure. -/
theorem output_written_only_on_success_witness :
    (add_docstrings_to_file cAuthor (.error "SyntaxError")).success = false ∧
      (add_docstrings_to_file cAuthor (.error "SyntaxError")).written = none :=
  output_written_only_on_success cAuthor (.error "SyntaxError") (by rfl)

/-- Claim C9: a routine (with the nonempty body Python syntax guarantees)
that has a parameter whose annotation is present but not a plain identifier
makes `param.annotation.id` raise, so `add_docstrings_to_file` fails for any
module containing it and writes nothing. -/
theorem nonname_param_ann_fails_file (a : AuthorInfo) (m : PyModule)
    (f : FunctionDef) (p : Param) (hf : f ∈ m.funcs) (hp : p ∈ f.args)
    (hne : f.body ≠ [])
    (hsome : p.ann ≠ none) (hname : ∀ i, p.ann ≠ some (Annot.name i)) :
    (add_docstrings_to_file a (.ok m)).success = false ∧
      (add_docstrings_to_file a (.ok m)).written = none := by
  have hpt : (paramType p.ann).toBool = false := by
    cases hann : p.ann with
    | none => exact absurd hann hsome
    | some an =>
      cases an with
      | name i => exact absurd hann (hname i)
      | const s => rfl
      | binOp l r => rfl
      | subscript => rfl
      | attribute_ => rfl
  exact add_fail a m (visitModule_fail a m (visitFuncs_fail a f
    (visit_fail a f (extract_fail_of_param f p hp hpt hne)) m.funcs hf))

/-- Witness for `nonname_param_ann_fails_file` at the concrete input
`c9mod` (parameter annotated `list[int]`). -/
theorem nonname_param_ann_fails_file_witness :
    (add_docstrings_to_file cAuthor (.ok c9mod)).success = false ∧
      (add_docstrings_to_file cAuthor (.ok c9mod)).written = none :=
  nonname_param_ann_fails_file cAuthor c9mod c9fun
    { arg := "x", ann := some Annot.subscript }
    (by decide) (by decide) (by decide) (by decide) (by intro i h; simp at h)

/-- A body with no string-literal statement consumes nothing. -/
theorem strStmts_eq_nil (body : List Stmt) (h : ∀ s ∈ body, isStr s = false) :
    strStmts body = [] := by
  induction body with
  | nil => rfl
  | cons s rest ih =>
    have hs := h s (by simp)
    have ih2 := ih (fun x hx => h x (List.mem_cons_of_mem s hx))
    simp only [strStmts, List.filter_cons, hs] at ih2 ⊢
    simpa using ih2

/-- Async extraction of an empty body returns the initial record. -/
theorem extract_async_nil (f : AsyncFunctionDef) (hb : f.body = []) :
    extract_async_function_metadata f = .ok (emptyAsyncMetadata f.name) := by
  simp [extract_async_function_metadata, hb]

/-- Every line of the Returns section appears in the synthesized lines. -/
theorem mem_lines_of_returnsSection (a : AuthorInfo) (md : FuncMetadata)
    (x : String) (hx : x ∈ returnsSection md) :
    x ∈ generate_function_docstring_lines a md := by
  simp only [generate_function_docstring_lines, List.mem_append]
  tauto

/-- Every line of the async Returns section appears in the synthesized
lines. -/
theorem mem_async_lines_of_returnsSection (a : AuthorInfo) (md : AsyncFuncMetadata)
    (x : String) (hx : x ∈ asyncReturnsSection md) :
    x ∈ generate_async_docstring_lines a md := by
  simp only [generate_async_docstring_lines, List.mem_append]
  tauto

/-- Every line of the async Raises section appears in the synthesized
lines. -/
theorem mem_async_lines_of_raisesSection (a : AuthorInfo) (md : AsyncFuncMetadata)
    (x : String) (hx : x ∈ asyncRaisesSection md) :
    x ∈ generate_async_docstring_lines a md := by
  simp only [generate_async_docstring_lines, List.mem_append]
  tauto

/-- Claim C3, counterexample: after a first run on `c3fun` the body is the
single synthesized block `c3doc1`; the claim says a second run keeps that
block and stacks a new one before it, but the second run consumes it (it is
a bare string literal) and the result holds exactly one block, not two. -/
theorem second_run_replaces_block_cx :
    bodyOf c3run1 = [Stmt.exprStr c3doc1] ∧
    Stmt.exprStr c3doc1 ∉ bodyOf c3run2 ∧
    (bodyOf c3run2).length = 1 := by
  decide

/-- Claim C3 (amended): running the pipeline a second time consumes the
first run's documentation block like any other bare string-literal statement
and inserts a single fresh block in its place: the second output's body is
the new block followed by the original non-string statements, and no
string-literal statement (in particular not the first block) survives in the
tail — the two blocks are never stacked. -/
theorem second_run_replaces_block (a : AuthorInfo) (f f1 : FunctionDef)
    (md1 : FuncMetadata)
    (h1 : visit_FunctionDef a f = .ok f1)
    (hmd : extract_function_metadata f1 = .ok md1) :
    visit_FunctionDef a f1 =
      .ok { f1 with
            body := Stmt.exprStr (generate_function_docstring a md1)
              :: f.body.filter (fun s => !isStr s) } ∧
    ∀ v, Stmt.exprStr v ∉ f.body.filter (fun s => !isStr s) := by
  constructor
  · cases h0 : extract_function_metadata f with
    | error m => simp [visit_FunctionDef, h0] at h1
    | ok md0 =>
      have hsh := visit_shape a f md0 h0
      rw [h1] at hsh
      simp only [Except.ok.injEq] at hsh
      have hbody1 : f1.body = Stmt.exprStr (generate_function_docstring a md0)
          :: f.body.filter (fun s => !isStr s) := by
        have hb2 := congrArg FunctionDef.body hsh
        simp only at hb2
        exact hb2
      have hfil : f1.body.filter (fun s => !isStr s)
          = f.body.filter (fun s => !isStr s) := by
        rw [hbody1]
        simp [List.filter_cons, isStr, List.filter_filter]
      rw [visit_shape a f1 md1 hmd, hfil]
  · intro v hv
    have h2 := (List.mem_filter.mp hv).2
    simp [isStr] at h2

/-- Witness for `second_run_replaces_block` at the concrete inputs `c3fun`,
`c3fun1`. -/
theorem second_run_replaces_block_witness :
    visit_FunctionDef cAuthor c3fun1 =
      .ok { c3fun1 with
            body := Stmt.exprStr (generate_function_docstring cAuthor c3md1)
              :: c3fun.body.filter (fun s => !isStr s) } :=
  (second_run_replaces_block cAuthor c3fun c3fun1 c3md1 (by rfl) (by rfl)).1

/-- Claim C4, counterexample: `c4fun` has zero convention statements; the
claim says its block has an empty description line and no Parameters
section, but the block renders the description as `### None` (Python `None`
formatted into the template) and, since the routine has a parameter, a
Parameters section. -/
theorem zero_convention_block_cx :
    docStrs c4fun.body = [] ∧
    "## Parameters:" ∈ c4lines ∧
    "### None" ∈ c4lines ∧
    "### " ∉ c4lines := by
  decide

/-- Claim C4 (amended): for every routine with zero convention statements,
no parameters, no return annotation, and no return statements, the block is
exactly the name heading, the description line `### None` (the missing
description renders as the text `None`, not as an empty line), and the
author footer, with no Parameters/Returns/Raises sections. -/
theorem zero_convention_minimal_block (a : AuthorInfo) (f : FunctionDef)
    (md : FuncMetadata) (h : extract_function_metadata f = .ok md)
    (hargs : f.args = []) (hret : f.returns = none)
    (hbody : ∀ s ∈ f.body, isStr s = false ∧ isRetStmt s = false) :
    generate_function_docstring_lines a md =
      ["# " ++ f.name, "---", "### None", "---", authorLine a] := by
  have hmdeq : md = emptyFuncMetadata f.name := by
    cases hb : f.body with
    | nil =>
      rw [extract_nil f hb] at h
      simp only [Except.ok.injEq] at h
      exact h.symm
    | cons s rest =>
      obtain ⟨table, rets, acc, htable, hrets, hacc, hmd⟩ := extract_ok_inv f s rest hb md h
      obtain ⟨hds, hex, hexc, hir⟩ := scanBody_ok f.body acc hacc
      rw [hargs] at htable
      simp only [buildParamTable, buildParamTableAux, Except.ok.injEq] at htable
      rw [hret] at hrets
      simp only [resolveReturns, Except.ok.injEq] at hrets
      have hds0 : acc.ds = [] := by
        rw [hds]
        exact docStrs_eq_nil f.body (fun s hs => (hbody s hs).1)
      have hex0 : acc.extra = [] := by
        rw [hex]
        exact strStmts_eq_nil f.body (fun s hs => (hbody s hs).1)
      have hir0 : acc.is_return = false := by
        rw [hir]
        exact anyRet_eq_false f.body (fun s hs => (hbody s hs).2)
      rw [hmd, hds0, hex0, hexc, hir0, ← htable, ← hrets]
      rfl
  rw [hmdeq]
  rfl

/-- Witness for `zero_convention_minimal_block` at the concrete input
`c4wfun`. -/
theorem zero_convention_minimal_block_witness :
    generate_function_docstring_lines cAuthor c4wmd =
      ["# " ++ c4wfun.name, "---", "### None", "---", authorLine cAuthor] :=
  zero_convention_minimal_block cAuthor c4wfun c4wmd (by rfl) rfl rfl (by decide)

/-- Claim C5, counterexample: `c5fun` has a return-with-value statement and
no `return:` convention line, yet (because it carries an `int` return
annotation, which is truthy) its Returns section renders `- int - ...`, not
`- Any - ...`, contradicting the claim as stated. -/
theorem annotated_return_not_any_cx :
    docStrs c5fun.body = [] ∧
    Stmt.ret true ∈ c5fun.body ∧
    "- Any - ..." ∉ c5lines ∧
    "- int - ..." ∈ c5lines := by
  decide

/-- Claim C5 (amended): for every routine whose body contains a
return-with-value statement, that has no `return:` convention line and no
return type annotation, the Returns section renders exactly the line
`- Any - ...`. -/
theorem bare_return_renders_any (a : AuthorInfo) (f : FunctionDef)
    (md : FuncMetadata) (h : extract_function_metadata f = .ok md)
    (hret : f.returns = none)
    (hretstmt : Stmt.ret true ∈ f.body)
    (hnomsg : ∀ v, Stmt.exprStr v ∈ f.body → pyStartsWith v "return:" = false) :
    returnsSection md = ["## Returns:", "- Any - ...", ""] ∧
    "## Returns:" ∈ generate_function_docstring_lines a md ∧
    "- Any - ..." ∈ generate_function_docstring_lines a md := by
  have hne : f.body ≠ [] := List.ne_nil_of_mem hretstmt
  have hsec : returnsSection md = ["## Returns:", "- Any - ...", ""] := by
    cases hb : f.body with
    | nil => exact absurd hb hne
    | cons s rest =>
      obtain ⟨table, rets, acc, htable, hrets, hacc, hmd⟩ := extract_ok_inv f s rest hb md h
      obtain ⟨hds, hex, hexc, hir⟩ := scanBody_ok f.body acc hacc
      rw [hret] at hrets
      simp only [resolveReturns, Except.ok.injEq] at hrets
      have hr : md.returns = none := by
        rw [hmd]
        exact hrets.symm
      have hmsg : md.returns_message = none := by
        rw [hmd]
        exact foldl_classifyOne_returns_message acc.ds
          (fun d hd => hnomsg d (mem_docStrs f.body d (hds ▸ hd)))
          (emptyFuncMetadata f.name, table)
      have hrt : md.is_return = true := by
        rw [hmd]
        show acc.is_return = true
        rw [hir]
        simp only [anyRet, List.any_eq_true]
        exact ⟨Stmt.ret true, hretstmt, rfl⟩
      unfold returnsSection
      rw [hr, hmsg, hrt]
      rfl
  refine ⟨hsec, ?_, ?_⟩
  · exact mem_lines_of_returnsSection a md _ (by rw [hsec]; simp)
  · exact mem_lines_of_returnsSection a md _ (by rw [hsec]; simp)

/-- Witness for `bare_return_renders_any` at the concrete input `c5wfun`. -/
theorem bare_return_renders_any_witness :
    returnsSection c5wmd = ["## Returns:", "- Any - ...", ""] ∧
    "## Returns:" ∈ generate_function_docstring_lines cAuthor c5wmd ∧
    "- Any - ..." ∈ generate_function_docstring_lines cAuthor c5wmd :=
  bare_return_renders_any cAuthor c5wfun c5wmd (by rfl) rfl (by decide)
    (by intro v hv; simp [c5wfun] at hv)

/-- Claim C6, counterexample: for parameter `x`, the line `"x: x: hi"` is an
`x:` convention match whose remainder after the leading prefix is
`" x: hi"`; the code stores `"  hi"` instead, because `str.replace` removes
every occurrence of `"x:"`, not only the leading one. -/
theorem param_message_not_remainder_cx :
    ("x: x: hi" : String) = "x:" ++ " x: hi" ∧
    paramClassify "x: x: hi" [("x", { type := "...", msg := none })] =
      [("x", { type := "...", msg := some "  hi" })] ∧
    ("  hi" : String) ≠ " x: hi" := by
  decide

/-- Claim C6 (amended): a `<param>:` match stores the line with every
occurrence of `<param>:` removed; whenever the prefix does not occur again
in the remainder, the stored message is exactly the remainder of the line
after stripping the leading prefix, with its content unchanged. -/
theorem param_message_remainder (p rest : String) (info : ParamInfo)
    (t : List (String × ParamInfo))
    (hocc : hasOccurrence (p ++ ":").data rest.data = false) :
    paramClassify ((p ++ ":") ++ rest) ((p, info) :: t) =
      (p, { info with msg := some rest }) :: t := by
  have hne : (p ++ ":").data ≠ [] := by
    rw [string_data_append, show (":" : String).data = [':'] from rfl]
    simp
  have hpref : pyStartsWith ((p ++ ":") ++ rest) (p ++ ":") = true := by
    unfold pyStartsWith
    rw [string_data_append]
    exact isPrefixOf_append_self _ _
  unfold paramClassify
  rw [hpref]
  simp only [if_true]
  rw [pyReplace_strip (p ++ ":") rest hne hocc]

/-- Witness for `param_message_remainder` at the concrete parameter `name`
and line `"name: The users name."`. -/
theorem param_message_remainder_witness :
    paramClassify (("name" ++ ":") ++ " The users name.")
        [("name", { type := "str", msg := none })] =
      [("name", { type := "str", msg := some " The users name." })] :=
  param_message_remainder "name" " The users name." { type := "str", msg := none } []
    (by decide)

/-- Claim C10: every async routine with no convention lines, no return
annotation and no raise statements still gets both a Returns section
(rendered `- None - ...`, message placeholder `...`) and a Raises section
(rendered `- ...`), because the async extractor initializes
`returns_message` and `exception_message` to the truthy `"..."`. -/
theorem async_always_renders_returns_and_raises (a : AuthorInfo)
    (f : AsyncFunctionDef) (md : AsyncFuncMetadata)
    (h : extract_async_function_metadata f = .ok md)
    (hstr : ∀ s ∈ f.body, isStr s = false)
    (hret : f.returns = none) :
    asyncReturnsSection md = ["## Returns:", "- None - ...", ""] ∧
    asyncRaisesSection md = ["## Raises:", "- ...", ""] ∧
    "## Returns:" ∈ generate_async_docstring_lines a md ∧
    "- None - ..." ∈ generate_async_docstring_lines a md ∧
    "## Raises:" ∈ generate_async_docstring_lines a md ∧
    "- ..." ∈ generate_async_docstring_lines a md := by
  have hfields : md.returns_message = "..." ∧ md.exception_message = "..." ∧
      md.returns = none ∧ md.exceptions = [] := by
    cases hb : f.body with
    | nil =>
      rw [extract_async_nil f hb] at h
      simp only [Except.ok.injEq] at h
      rw [← h]
      exact ⟨rfl, rfl, rfl, rfl⟩
    | cons s rest =>
      obtain ⟨table, rets, acc, htable, hrets, hacc, hmd⟩ :=
        extract_async_ok_inv f s rest hb md h
      obtain ⟨hds, hex, hexc⟩ := asyncScanBody_ok f.body acc hacc
      rw [hret] at hrets
      simp only [asyncReturns, Except.ok.injEq] at hrets
      have hds0 : acc.ds = [] := by
        rw [hds]
        exact docStrs_eq_nil f.body hstr
      rw [hds0, List.foldl_nil] at hmd
      refine ⟨?_, ?_, ?_, ?_⟩
      · rw [hmd]; rfl
      · rw [hmd]; rfl
      · rw [hmd]; exact hrets.symm
      · rw [hmd]; exact hexc
  obtain ⟨h1, h2, h3, h4⟩ := hfields
  have hrs : asyncReturnsSection md = ["## Returns:", "- None - ...", ""] := by
    unfold asyncReturnsSection
    rw [h1, h3]
    rfl
  have hxs : asyncRaisesSection md = ["## Raises:", "- ...", ""] := by
    unfold asyncRaisesSection
    rw [h2, h4]
    rfl
  refine ⟨hrs, hxs, ?_, ?_, ?_, ?_⟩
  · exact mem_async_lines_of_returnsSection a md _ (by rw [hrs]; simp)
  · exact mem_async_lines_of_returnsSection a md _ (by rw [hrs]; simp)
  · exact mem_async_lines_of_raisesSection a md _ (by rw [hxs]; simp)
  · exact mem_async_lines_of_raisesSection a md _ (by rw [hxs]; simp)

/-- Witness for `async_always_renders_returns_and_raises` at the concrete
input `c10fun`. -/
theorem async_always_renders_returns_and_raises_witness :
    asyncReturnsSection c10md = ["## Returns:", "- None - ...", ""] ∧
    asyncRaisesSection c10md = ["## Raises:", "- ...", ""] ∧
    "## Returns:" ∈ generate_async_docstring_lines cAuthor c10md ∧
    "- None - ..." ∈ generate_async_docstring_lines cAuthor c10md ∧
    "## Raises:" ∈ generate_async_docstring_lines cAuthor c10md ∧
    "- ..." ∈ generate_async_docstring_lines cAuthor c10md :=
  async_always_renders_returns_and_raises cAuthor c10fun c10md (by rfl)
    (by decide) rfl
